import Mathlib

/-!
Shallow embedding of `src/cpp/src/keyczar/openssl/dsa.cc` (keyczar's OpenSSL
DSA wrapper) and proofs about its specified behaviour.

Modelling conventions:
* A byte string (`std::string` used as raw bytes) is a `List Nat`; where a
  property needs the bytes to be genuine bytes, the hypothesis `d < 256` is
  carried explicitly.
* OpenSSL `BIGNUM` values are `Nat` (they are used only as non-negative
  integers here).  `BN_bin2bn` is the big-endian decode; it fails only on
  out-of-memory, which is outside the model, so it is total; `len = 0`
  yields the zero `BIGNUM`.  `BN_bn2bin` writes the minimal big-endian
  encoding: `BN_num_bytes` of zero is `0`, so zero encodes to the empty
  string.
* Nullable `BIGNUM*` fields of the native `DSA` struct are `Option Nat`.
* Allocation failures (`DSA_new`, `BN_bin2bn` returning `NULL` on OOM) are
  outside the model; every other `NULL` check in the source is represented
  faithfully.
-/

/-- Byte strings as lists of naturals (each byte is `< 256` where it matters). -/
abbrev Bytes := List Nat

/-- `BN_bin2bn`: interpret a byte string as a big-endian unsigned integer.
Empty input decodes to zero, exactly as OpenSSL's `BN_bin2bn` with `len = 0`. -/
def BN_bin2bn (b : Bytes) : Nat :=
  b.foldl (fun acc d => acc * 256 + d) 0

/-- `BN_bn2bin` (composed with `BN_num_bytes` sizing): the minimal big-endian
encoding of a non-negative integer.  Zero has `BN_num_bytes = 0` and so
encodes to the empty byte string. -/
def BN_bn2bin (n : Nat) : Bytes :=
  if h : n = 0 then [] else BN_bn2bin (n / 256) ++ [n % 256]
decreasing_by exact Nat.div_lt_self (Nat.pos_of_ne_zero h) (by decide)

theorem BN_bn2bin_zero : BN_bn2bin 0 = [] := by
  unfold BN_bn2bin; simp

theorem BN_bin2bn_nil : BN_bin2bn ([] : Bytes) = 0 := rfl

/-- Generalised decode with accumulator never drops below the accumulator. -/
theorem foldl_decode_ge (t : Bytes) : ∀ a : Nat, a ≤ t.foldl (fun acc d => acc * 256 + d) a := by
  induction t with
  | nil => intro a; exact Nat.le_refl a
  | cons d t ih =>
      intro a
      simp only [List.foldl_cons]
      have h1 : a ≤ a * 256 + d := by
        calc a = a * 1 := (Nat.mul_one a).symm
        _ ≤ a * 256 := Nat.mul_le_mul_left a (by decide)
        _ ≤ a * 256 + d := Nat.le_add_right _ _
      exact Nat.le_trans h1 (ih (a * 256 + d))

/-- Decoding a byte string with a nonzero leading byte gives a positive value. -/
theorem BN_bin2bn_pos (h : Nat) (t : Bytes) (hh : h ≠ 0) :
    0 < BN_bin2bn (h :: t) := by
  have : h ≤ BN_bin2bn (h :: t) := by
    simp only [BN_bin2bn, List.foldl_cons, Nat.zero_mul, Nat.zero_add]
    exact foldl_decode_ge t h
  exact Nat.lt_of_lt_of_le (Nat.pos_of_ne_zero hh) this

theorem BN_bin2bn_append (l : Bytes) (d : Nat) :
    BN_bin2bn (l ++ [d]) = BN_bin2bn l * 256 + d := by
  simp [BN_bin2bn, List.foldl_append]

/-- Peeling the last byte off an encode of `k * 256 + d`. -/
theorem BN_bn2bin_mul_add (k d : Nat) (hd : d < 256) (hnz : k ≠ 0 ∨ d ≠ 0) :
    BN_bn2bin (k * 256 + d) = BN_bn2bin k ++ [d] := by
  have hne : k * 256 + d ≠ 0 := by
    rcases hnz with hk | hdz
    · intro hc
      have : k * 256 = 0 := by omega
      have : k = 0 := by
        rcases Nat.mul_eq_zero.mp this with h | h
        · exact h
        · omega
      exact hk this
    · omega
  have hdiv : (k * 256 + d) / 256 = k := by
    rw [Nat.add_comm, Nat.add_mul_div_right _ _ (by decide : 0 < 256)]
    simp [Nat.div_eq_of_lt hd]
  have hmod : (k * 256 + d) % 256 = d := by
    rw [Nat.add_comm, Nat.add_mul_mod_self_right]
    exact Nat.mod_eq_of_lt hd
  rw [BN_bn2bin]
  simp [hne, hdiv, hmod]

/-- A minimal big-endian encoding of a positive integer: nonempty, no leading
zero byte, all entries genuine bytes. -/
def MinimalBE (b : Bytes) : Prop :=
  b ≠ [] ∧ b.head? ≠ some 0 ∧ ∀ d ∈ b, d < 256

instance (b : Bytes) : Decidable (MinimalBE b) := by
  unfold MinimalBE; infer_instance

/-- Core codec round trip: encode after decode reproduces any minimal
big-endian byte string exactly. -/
theorem BN_bn2bin_BN_bin2bn (b : Bytes) (hb : MinimalBE b) :
    BN_bn2bin (BN_bin2bn b) = b := by
  obtain ⟨hne, hhead, hbytes⟩ := hb
  cases b with
  | nil => exact absurd rfl hne
  | cons h t =>
      have hh : h ≠ 0 := by
        intro hc; apply hhead; simp [hc]
      have hhlt : h < 256 := hbytes h (List.mem_cons_self h t)
      have hbt : ∀ d ∈ t, d < 256 := fun d hd => hbytes d (List.mem_cons_of_mem h hd)
      clear hhead hbytes hne
      induction t using List.reverseRecOn with
      | nil =>
          have hdec : BN_bin2bn [h] = h := by
            simp [BN_bin2bn]
          rw [hdec, BN_bn2bin]
          simp [hh, Nat.div_eq_of_lt hhlt, Nat.mod_eq_of_lt hhlt, BN_bn2bin_zero]
      | append_singleton t d ih =>
          have hd : d < 256 := hbt d (by simp)
          have hbt' : ∀ e ∈ t, e < 256 := fun e he => hbt e (by simp [he])
          have hsplit : (h :: (t ++ [d])) = (h :: t) ++ [d] := by simp
          rw [hsplit, BN_bin2bn_append]
          have hpos : BN_bin2bn (h :: t) ≠ 0 :=
            Nat.pos_iff_ne_zero.mp (BN_bin2bn_pos h t hh)
          rw [BN_bn2bin_mul_add _ d hd (Or.inl hpos), ih hbt']

/-! ## Data model: `DSAIntermediateKey` (Portable Key Record) and the native key -/

/-- The Portable Key Record (`DSAIntermediateKey` in the C++ header): five
byte-string fields.  As in the C++ `std::string` fields, an "absent" `x` is
the empty byte string. -/
structure DSAIntermediateKey where
  p : Bytes
  q : Bytes
  g : Bytes
  y : Bytes
  x : Bytes
  deriving DecidableEq, Repr

/-- The native OpenSSL `DSA` structure: nullable `BIGNUM*` fields modelled as
`Option Nat`.  `DSA_new` initialises every field to `NULL` (`none`). -/
structure DSA where
  p : Option Nat
  q : Option Nat
  g : Option Nat
  pub_key : Option Nat
  priv_key : Option Nat
  deriving DecidableEq, Repr

/-- The wrapper object: an owned native key (always non-null for an object
produced by `Create`/`GenerateKey`, which is the only way the source builds
one) plus the `private_key_` flag. -/
structure DSAOpenSSL where
  key : DSA
  private_key : Bool
  deriving DecidableEq, Repr

/-- `DSAOpenSSL::Create` (dsa.cc lines 36-83).  `BN_bin2bn` fails only on
out-of-memory (outside the model), so each decode succeeds, including on the
empty string (which yields the zero `BIGNUM`).  When `private_key` is false
the function returns before ever touching `key.x`. -/
def DSAOpenSSL.Create (key : DSAIntermediateKey) (private_key : Bool) :
    Option DSAOpenSSL :=
  let dsa : DSA :=
    { p := some (BN_bin2bn key.p)
      q := some (BN_bin2bn key.q)
      g := some (BN_bin2bn key.g)
      pub_key := some (BN_bin2bn key.y)
      priv_key := none }
  if private_key = false then
    some { key := dsa, private_key := private_key }
  else
    some { key := { dsa with priv_key := some (BN_bin2bn key.x) }
           private_key := private_key }

/-- `DSAOpenSSL::GetPublicAttributes` (dsa.cc lines 130-174).  Fails when any
of the four public `BIGNUM*` fields is `NULL`; otherwise overwrites `p`, `q`,
`g`, `y` of the caller-supplied record with the minimal big-endian encodings
(`BN_num_bytes`/`BN_bn2bin`) and leaves `x` untouched. -/
def DSAOpenSSL.GetPublicAttributes (o : DSAOpenSSL) (key : DSAIntermediateKey) :
    Option DSAIntermediateKey :=
  match o.key.p, o.key.q, o.key.g, o.key.pub_key with
  | some vp, some vq, some vg, some vy =>
      some { key with
              p := BN_bn2bin vp
              q := BN_bn2bin vq
              g := BN_bn2bin vg
              y := BN_bn2bin vy }
  | _, _, _, _ => none

/-- `DSAOpenSSL::GetAttributes` (dsa.cc lines 108-128).  Fails when
`private_key_` is false or the native `priv_key` pointer is `NULL`; otherwise
runs `GetPublicAttributes` and then also writes the encoding of `x`. -/
def DSAOpenSSL.GetAttributes (o : DSAOpenSSL) (key : DSAIntermediateKey) :
    Option DSAIntermediateKey :=
  if o.private_key = false then none
  else
    match o.key.priv_key with
    | none => none
    | some vx =>
        match o.GetPublicAttributes key with
        | none => none
        | some r => some { r with x := BN_bn2bin vx }

/-- Result of the external `DSA_verify` primitive: `1` (valid), `0` (invalid
signature), `-1` (malformed input / internal error). -/
inductive VerifyPrimResult where
  | valid
  | invalid
  | error
  deriving DecidableEq, Repr

/-- `DSAOpenSSL::Verify` (dsa.cc lines 221-240), parameterised by the external
`DSA_verify` primitive.  The return type is a plain `Bool`: `ret_val == 1`
returns `true`; `ret_val == -1` prints diagnostics (a side effect outside the
model) and then falls through to `return false`, exactly like `ret_val == 0`. -/
def DSAOpenSSL.Verify
    (DSA_verify : Bytes → Bytes → DSA → VerifyPrimResult)
    (o : DSAOpenSSL) (message_digest signature : Bytes) : Bool :=
  match DSA_verify message_digest signature o.key with
  | .valid => true
  | .invalid => false
  | .error => false

/-- `DSAOpenSSL::Sign` (dsa.cc lines 196-219), parameterised by the external
`DSA_sign` primitive (which either produces a signature or fails).  The guard
`!private_key_` makes the operation fail immediately on a public-only
object. -/
def DSAOpenSSL.Sign
    (DSA_sign : Bytes → DSA → Option Bytes)
    (o : DSAOpenSSL) (message_digest : Bytes) : Option Bytes :=
  if o.private_key = false then none
  else DSA_sign message_digest o.key

/-- `DSAOpenSSL::Equals` (dsa.cc lines 242-260): false when the
`private_key_` flags differ, then `BN_cmp` on `p`, `q`, `g`, `pub_key`; a
public pair stops there, a private pair also compares `priv_key`. -/
def DSAOpenSSL.Equals (a rhs : DSAOpenSSL) : Bool :=
  if a.private_key ≠ rhs.private_key then false
  else if a.key.p ≠ rhs.key.p ∨ a.key.q ≠ rhs.key.q ∨
          a.key.g ≠ rhs.key.g ∨ a.key.pub_key ≠ rhs.key.pub_key then false
  else if a.private_key = false then true
  else if a.key.priv_key ≠ rhs.key.priv_key then false
  else true

/-! ## File-handle accounting for `WriteKeyToPEMFile` -/

/-- Abstract state of the process's open file handles. -/
structure FileState where
  openHandles : Nat
  deriving DecidableEq, Repr

/-- `DSAOpenSSL::WriteKeyToPEMFile` (dsa.cc lines 176-194) with explicit
file-handle accounting.  `file_util::OpenFile` (when it succeeds) opens one
handle; the source stores the raw `FILE*` in a local and returns on every
path — success, PEM-write failure — without ever calling `fclose` /
`file_util::CloseFile`, so the handle count is never decremented.  The
function is parameterised by whether the open and the PEM write primitive
succeed; the choice between `PEM_write_DSAPrivateKey` and
`PEM_write_DSA_PUBKEY` follows `private_key_` but both only report success or
failure here. -/
def DSAOpenSSL.WriteKeyToPEMFile
    (openSucceeds pemWriteSucceeds : Bool)
    (o : DSAOpenSSL) (st : FileState) : Bool × FileState :=
  if openSucceeds = false then (false, st)
  else
    let st1 : FileState := { st with openHandles := st.openHandles + 1 }
    let return_value : Bool := pemWriteSucceeds
    if return_value = false then (false, st1)
    else (true, st1)

/-- A concrete key object (as built by `Create` on a small record) used by
closed witness statements. -/
def sampleRecord : DSAIntermediateKey :=
  { p := [2], q := [3], g := [5], y := [9], x := [4] }

def samplePrivateKeyObj : DSAOpenSSL :=
  { key := { p := some 2, q := some 3, g := some 5, pub_key := some 9,
             priv_key := some 4 }
    private_key := true }

def samplePublicKeyObj : DSAOpenSSL :=
  { key := { p := some 2, q := some 3, g := some 5, pub_key := some 9,
             priv_key := none }
    private_key := false }

/-! ## Claim theorems -/

/-- C1: for every Portable Key Record whose five fields are minimal big-endian
encodings of positive integers, building a private key object with `Create`
and reading it back with `GetAttributes` reproduces the record
field-for-field in byte equality. -/
theorem create_getAttributes_roundtrip (r r0 : DSAIntermediateKey)
    (hp : MinimalBE r.p) (hq : MinimalBE r.q) (hg : MinimalBE r.g)
    (hy : MinimalBE r.y) (hx : MinimalBE r.x) :
    (DSAOpenSSL.Create r true).bind (fun o => DSAOpenSSL.GetAttributes o r0) =
      some r := by
  obtain ⟨rp, rq, rg, ry, rx⟩ := r
  simp [DSAOpenSSL.Create, DSAOpenSSL.GetAttributes, DSAOpenSSL.GetPublicAttributes,
        BN_bn2bin_BN_bin2bn _ hp, BN_bn2bin_BN_bin2bn _ hq, BN_bn2bin_BN_bin2bn _ hg,
        BN_bn2bin_BN_bin2bn _ hy, BN_bn2bin_BN_bin2bn _ hx]

/-- C1 witness: the round trip at a concrete record. -/
theorem create_getAttributes_roundtrip_witness :
    MinimalBE sampleRecord.p ∧
    (DSAOpenSSL.Create sampleRecord true).bind
      (fun o => DSAOpenSSL.GetAttributes o { p := [], q := [], g := [], y := [], x := [] }) =
      some sampleRecord :=
  ⟨by decide,
   create_getAttributes_roundtrip sampleRecord
     { p := [], q := [], g := [], y := [], x := [] }
     (by decide) (by decide) (by decide) (by decide) (by decide)⟩

/-- C2 counterexample: a malformed signature (the primitive reports `-1`)
makes `Verify` return the boolean `false` — the very same value as a
well-formed non-matching signature — rather than any `VerificationFailed`
error (the return type is a plain `Bool`, so no error can be signalled). -/
theorem verify_malformed_returns_false_cex :
    DSAOpenSSL.Verify (fun _ _ _ => VerifyPrimResult.error) samplePublicKeyObj [1] [2] = false ∧
    DSAOpenSSL.Verify (fun _ _ _ => VerifyPrimResult.invalid) samplePublicKeyObj [1] [2] = false :=
  ⟨rfl, rfl⟩

/-- C2 amended: `Verify` returns `true` exactly when the primitive reports a
valid signature; both the invalid-signature result and the
malformed-input/internal-error result are returned as `false`, and the caller
cannot distinguish them from the return value. -/
theorem verify_boolean_only
    (DSA_verify : Bytes → Bytes → DSA → VerifyPrimResult)
    (o : DSAOpenSSL) (d s : Bytes) :
    DSAOpenSSL.Verify DSA_verify o d s = true ↔
      DSA_verify d s o.key = VerifyPrimResult.valid := by
  unfold DSAOpenSSL.Verify
  cases DSA_verify d s o.key <;> simp

/-- C2 witness: the amended characterisation at a concrete primitive. -/
theorem verify_boolean_only_witness :
    DSAOpenSSL.Verify (fun _ _ _ => VerifyPrimResult.valid) samplePublicKeyObj [1] [2] = true :=
  (verify_boolean_only (fun _ _ _ => VerifyPrimResult.valid) samplePublicKeyObj [1] [2]).mpr rfl

/-- C3 counterexample: `Create` on a record whose `p` is the empty byte
string succeeds — `BN_bin2bn` with length 0 yields the zero `BIGNUM`, no
positivity check exists, and a key object with `p = 0` is returned. -/
theorem create_empty_p_succeeds_cex :
    DSAOpenSSL.Create { p := [], q := [3], g := [5], y := [9], x := [] } false =
      some { key := { p := some 0, q := some 3, g := some 5, pub_key := some 9,
                      priv_key := none }
             private_key := false } := by
  decide

/-- C3 amended: `Create` never rejects a field for decoding to a non-positive
value; for every record and mode it produces a key object whose native `p` is
exactly the big-endian decode of the record's `p` (zero included). -/
theorem create_no_positivity_check (r : DSAIntermediateKey) (b : Bool) :
    ∃ o : DSAOpenSSL, DSAOpenSSL.Create r b = some o ∧
      o.key.p = some (BN_bin2bn r.p) := by
  unfold DSAOpenSSL.Create
  cases b
  · exact ⟨_, rfl, rfl⟩
  · exact ⟨_, rfl, rfl⟩

/-- C4 counterexample: `Create` with `wantPrivate = true` on a record with no
`x` (the empty byte string) succeeds, with the private exponent set to zero
and `has_private` set to true — it does not fail with any error. -/
theorem create_missing_x_succeeds_cex :
    DSAOpenSSL.Create { p := [2], q := [3], g := [5], y := [9], x := [] } true =
      some { key := { p := some 2, q := some 3, g := some 5, pub_key := some 9,
                      priv_key := some 0 }
             private_key := true } := by
  decide

/-- C4 amended: on a record whose `x` field is absent (empty), `Create` with
`wantPrivate = true` succeeds and returns a key object whose private exponent
is zero and whose `has_private` flag is true. -/
theorem create_empty_x_zero_priv (r : DSAIntermediateKey) (hx : r.x = []) :
    ∃ o : DSAOpenSSL, DSAOpenSSL.Create r true = some o ∧
      o.key.priv_key = some 0 ∧ o.private_key = true := by
  refine ⟨_, rfl, ?_, rfl⟩
  show some (BN_bin2bn r.x) = some 0
  rw [hx]
  rfl

/-- C4 witness: the amended behaviour at a concrete record with empty `x`. -/
theorem create_empty_x_zero_priv_witness :
    ({ p := [2], q := [3], g := [5], y := [9], x := [] } : DSAIntermediateKey).x = [] ∧
    ∃ o : DSAOpenSSL,
      DSAOpenSSL.Create { p := [2], q := [3], g := [5], y := [9], x := [] } true = some o ∧
      o.key.priv_key = some 0 ∧ o.private_key = true :=
  ⟨rfl, create_empty_x_zero_priv _ rfl⟩

/-- C5 counterexample: the code's codec (`BN_num_bytes`/`BN_bn2bin`) encodes
zero as the empty byte string, so round-tripping `[0x00]` through decode then
encode yields `[]`, not `[0x00]` as the claim states. -/
theorem encode_zero_byte_cex :
    BN_bn2bin (BN_bin2bn [0]) = [] ∧ BN_bn2bin (BN_bin2bn [0]) ≠ [0] := by
  have h : BN_bin2bn [0] = 0 := rfl
  rw [h, BN_bn2bin_zero]
  exact ⟨rfl, by decide⟩

/-- C5 amended: the codec encodes zero as the empty byte string; for every
nonempty byte string with no leading zero byte (all entries bytes),
`encode (decode b) = b`; and `[0x00]` round-trips to the empty string. -/
theorem codec_encode_decode :
    BN_bn2bin 0 = [] ∧
    (∀ b : Bytes, MinimalBE b → BN_bn2bin (BN_bin2bn b) = b) ∧
    BN_bn2bin (BN_bin2bn [0]) = [] := by
  refine ⟨BN_bn2bin_zero, fun b hb => BN_bn2bin_BN_bin2bn b hb, ?_⟩
  have h : BN_bin2bn [0] = 0 := rfl
  rw [h, BN_bn2bin_zero]

/-- C5 witness: the round trip at a concrete minimal byte string. -/
theorem codec_encode_decode_witness :
    MinimalBE [2, 0] ∧ BN_bn2bin (BN_bin2bn [2, 0]) = [2, 0] :=
  ⟨by decide, codec_encode_decode.2.1 [2, 0] (by decide)⟩

/-- C6 (code bug): after a successful `WriteKeyToPEMFile` — and equally after
a PEM-write failure — the handle opened by `file_util::OpenFile` is still
open: the source stores the raw `FILE*` in a local and returns on every path
without closing it, so the descriptor leaks, contradicting the spec's
scoped-resource requirement. -/
theorem writeKeyToPEMFile_leaks_handle :
    (DSAOpenSSL.WriteKeyToPEMFile true true samplePrivateKeyObj
        { openHandles := 0 }).2.openHandles = 1 ∧
    (DSAOpenSSL.WriteKeyToPEMFile true false samplePrivateKeyObj
        { openHandles := 0 }).2.openHandles = 1 := by
  decide

/-- C7: on a key object whose `private_key_` flag is false, `Sign` fails for
every digest and primitive, and `GetAttributes` fails for every out-record —
both on the missing-private-component guard the spec names
`MissingPrivateKey`. -/
theorem sign_getAttributes_require_private
    (DSA_sign : Bytes → DSA → Option Bytes)
    (o : DSAOpenSSL) (digest : Bytes) (r0 : DSAIntermediateKey)
    (h : o.private_key = false) :
    DSAOpenSSL.Sign DSA_sign o digest = none ∧
    DSAOpenSSL.GetAttributes o r0 = none := by
  constructor
  · simp [DSAOpenSSL.Sign, h]
  · simp [DSAOpenSSL.GetAttributes, h]

/-- C7 witness: a concrete public-only object. -/
theorem sign_getAttributes_require_private_witness :
    samplePublicKeyObj.private_key = false ∧
    (DSAOpenSSL.Sign (fun _ _ => some [1]) samplePublicKeyObj [1] = none ∧
     DSAOpenSSL.GetAttributes samplePublicKeyObj sampleRecord = none) :=
  ⟨rfl, sign_getAttributes_require_private (fun _ _ => some [1])
          samplePublicKeyObj [1] sampleRecord rfl⟩

/-- C8: `Equals` is true exactly when the `private_key_` flags agree, the
four public fields agree, and — unless the objects are public — the private
exponents agree; in particular it is false whenever the flags differ, and
`Equals k k` holds for every key object. -/
theorem equals_characterization :
    (∀ a b : DSAOpenSSL, DSAOpenSSL.Equals a b = true ↔
      (a.private_key = b.private_key ∧ a.key.p = b.key.p ∧ a.key.q = b.key.q ∧
       a.key.g = b.key.g ∧ a.key.pub_key = b.key.pub_key ∧
       (a.private_key = false ∨ a.key.priv_key = b.key.priv_key))) ∧
    (∀ k : DSAOpenSSL, DSAOpenSSL.Equals k k = true) := by
  constructor
  · intro a b
    unfold DSAOpenSSL.Equals
    split_ifs with h1 h2 h3 h4 <;> simp_all <;> tauto
  · intro k
    unfold DSAOpenSSL.Equals
    simp

/-- C8 witness: reflexivity at a concrete private key object. -/
theorem equals_characterization_witness :
    DSAOpenSSL.Equals samplePrivateKeyObj samplePrivateKeyObj = true :=
  equals_characterization.2 samplePrivateKeyObj

/-- C9: `Create` in public mode never reads the record's `x` field: two
records agreeing on `p`, `q`, `g`, `y` (whatever their `x`) produce the same
key object, and that object's `has_private` flag is false. -/
theorem create_public_ignores_x (r1 r2 : DSAIntermediateKey)
    (hp : r1.p = r2.p) (hq : r1.q = r2.q) (hg : r1.g = r2.g) (hy : r1.y = r2.y) :
    DSAOpenSSL.Create r1 false = DSAOpenSSL.Create r2 false ∧
    (DSAOpenSSL.Create r1 false).map DSAOpenSSL.private_key = some false := by
  constructor
  · simp [DSAOpenSSL.Create, hp, hq, hg, hy]
  · simp [DSAOpenSSL.Create]

/-- C9 witness: two records differing only in `x` (one present, one absent)
yield identical public key objects. -/
theorem create_public_ignores_x_witness :
    DSAOpenSSL.Create { p := [2], q := [3], g := [5], y := [9], x := [4] } false =
      DSAOpenSSL.Create { p := [2], q := [3], g := [5], y := [9], x := [] } false ∧
    (DSAOpenSSL.Create { p := [2], q := [3], g := [5], y := [9], x := [4] } false).map
      DSAOpenSSL.private_key = some false :=
  create_public_ignores_x
    { p := [2], q := [3], g := [5], y := [9], x := [4] }
    { p := [2], q := [3], g := [5], y := [9], x := [] }
    rfl rfl rfl rfl

/-- C10: `Verify` never consults the `private_key_` flag: a public-only
object (flag false) verifies exactly as the same native key with the flag
true, always producing a boolean verdict — there is no missing-private-key
failure path in `Verify`. -/
theorem verify_ignores_private_flag
    (DSA_verify : Bytes → Bytes → DSA → VerifyPrimResult)
    (k : DSA) (d s : Bytes) :
    DSAOpenSSL.Verify DSA_verify { key := k, private_key := false } d s =
      DSAOpenSSL.Verify DSA_verify { key := k, private_key := true } d s := rfl
